import Mathlib

/-!
Shallow embedding of the adaptive review engine of the AF-Exam quiz
application: the spaced-repetition scheduler (`js/smart.js`), the round
state machine (`js/quiz.js` together with the state module `js/state.js`),
and the timestamp-based cloud sync reconciler (`js/storage.js`).
Machine numbers are modelled as `Nat`/`Int`/`Rat`; JavaScript objects
become structures, absent fields become `Option`, and JS truthiness checks
are translated explicitly at each use site.
-/

namespace AFExam

/-! ## Configuration (`js/config.js`) -/

/-- `SPACED_REP_CONFIG.MAX_LEVEL`. -/
def MAX_LEVEL : Nat := 5

/-- `SPACED_REP_CONFIG.CORRECT_SURE`: +2 levels if correct and sure. -/
def CORRECT_SURE : Int := 2

/-- `SPACED_REP_CONFIG.CORRECT_NOT_SURE`: +1 level if correct but not sure. -/
def CORRECT_NOT_SURE : Int := 1

/-- `SPACED_REP_CONFIG.WRONG`: -2 levels if wrong. -/
def WRONG : Int := -2

/-- `SPACED_REP_CONFIG.INTERVALS[level] || 50` as used in `smart.js`:
the lookup yields the configured interval for levels 0..5 and `undefined`
(hence the `|| 50` fallback) for any other level. -/
def intervalForLevel : Nat → Nat
  | 0 => 2
  | 1 => 4
  | 2 => 8
  | 3 => 15
  | 4 => 25
  | 5 => 50
  | _ => 50

/-- `EXAM_CONFIG.PASS_THRESHOLD`. -/
def PASS_THRESHOLD : Nat := 72

/-! ## Data model (`js/state.js`) -/

/-- The `status` field of a per-question `QuestionState`. -/
inductive AnswerStatus where
  | unanswered
  | correct
  | wrong
  deriving DecidableEq, Repr

/-- Per-session, per-question `QuestionState` record. -/
structure QuestionState where
  selectedAnswer : Option String
  status : AnswerStatus
  dontKnow : Bool
  notSure : Bool
  time : Nat
  deriving DecidableEq, Repr

/-- Persisted per-question spaced-repetition record.  `lastSeenPosition`
is optional because the JavaScript object may lack the field (the default
record created by `getSpacedRepData` has no such key). -/
structure SpacedRepData where
  level : Nat
  lastSeen : Nat
  seenCount : Nat
  lastSeenPosition : Option Nat
  deriving DecidableEq, Repr

/-- `getSpacedRepData`'s default record `{ level: 0, lastSeen: 0, seenCount: 0 }`. -/
def defaultSpacedRep : SpacedRepData :=
  { level := 0, lastSeen := 0, seenCount := 0, lastSeenPosition := none }

/-- `getSpacedRepData(qid)`: the stored record or the default. -/
def getSpacedRepData (sr : Nat → Option SpacedRepData) (qid : Nat) : SpacedRepData :=
  (sr qid).getD defaultSpacedRep

/-! ## Spaced-repetition level update (`smart.js` `updateSpacedRepLevel`)

The JavaScript function reads the record, adds the configured delta,
clamps to `[0, MAX_LEVEL]`, and stores `{ level, lastSeen: Date.now(),
seenCount: seenCount + 1 }` spread over the existing record, so the
`lastSeenPosition` field (when present) is carried over unchanged. -/

def updateSpacedRepLevel (d : SpacedRepData) (correct notSure : Bool) (now : Nat) :
    SpacedRepData :=
  let delta : Int := if correct then (if notSure then CORRECT_NOT_SURE else CORRECT_SURE) else WRONG
  let newLevel : Nat := (max 0 (min (MAX_LEVEL : Int) ((d.level : Int) + delta))).toNat
  { d with level := newLevel, lastSeen := now, seenCount := d.seenCount + 1 }

/-- `markQuestionSeen(qid, position)` (`smart.js`): stores
`lastSeenPosition` over the existing record.  This function is defined in
the source but has no caller anywhere in the repository. -/
def markQuestionSeen (sr : Nat → Option SpacedRepData) (qid position : Nat) :
    Nat → Option SpacedRepData :=
  fun q =>
    if q = qid then some { getSpacedRepData sr qid with lastSeenPosition := some position }
    else sr q

/-! ## Priority score (`smart.js` `calculatePriority`)

`Math.random()` is modelled by an explicit parameter `r` with `0 ≤ r < 1`;
scores are rationals so that the `r * 100` jitter is exact. -/

def calculatePriority (d : SpacedRepData) (currentPosition : Int) (r : Rat) : Rat :=
  let interval : Nat := intervalForLevel d.level
  if d.seenCount = 0 then
    -1000 + r * 100
  else
    let questionsSinceSeen : Int := currentPosition - ((d.lastSeenPosition.getD 0 : Nat) : Int)
    let overdueScore : Rat := (questionsSinceSeen : Rat) - (interval : Rat)
    overdueScore - (d.level : Rat) * 10

/-! ## Smart-mode statistics (`smart.js` `getSmartStats`) -/

/-- The branch taken by the `forEach` body of `getSmartStats` for one
question id: no record or `seenCount === 0` counts as not-started, then
`level >= 4` as mastered, then `level >= 1` as learning, else struggling. -/
inductive SmartCategory where
  | mastered
  | learning
  | struggling
  | notStarted
  deriving DecidableEq, Repr

def classify (sr : Nat → Option SpacedRepData) (qid : Nat) : SmartCategory :=
  match sr qid with
  | none => .notStarted
  | some d =>
      if d.seenCount = 0 then .notStarted
      else if 4 ≤ d.level then .mastered
      else if 1 ≤ d.level then .learning
      else .struggling

structure SmartStats where
  total : Nat
  mastered : Nat
  learning : Nat
  struggling : Nat
  notStarted : Nat
  deriving DecidableEq, Repr

/-- `getSmartStats` iterates the question universe once, incrementing one
of the four counters per id; counting the ids that take each branch gives
the same totals. -/
def getSmartStats (allQids : List Nat) (sr : Nat → Option SpacedRepData) : SmartStats :=
  { total := allQids.length
    mastered := allQids.countP (fun q => classify sr q = .mastered)
    learning := allQids.countP (fun q => classify sr q = .learning)
    struggling := allQids.countP (fun q => classify sr q = .struggling)
    notStarted := allQids.countP (fun q => classify sr q = .notStarted) }

/-! Category predicates exactly as the claim words them: mastered means
level ≥ 4 with a positive seen count, learning means level 1–3 with a
positive seen count, struggling means level 0 with a positive seen count,
not-started means no record or a zero seen count. -/

def claimMastered (sr : Nat → Option SpacedRepData) (q : Nat) : Bool :=
  match sr q with
  | some d => decide (4 ≤ d.level) && decide (0 < d.seenCount)
  | none => false

def claimLearning (sr : Nat → Option SpacedRepData) (q : Nat) : Bool :=
  match sr q with
  | some d => decide (1 ≤ d.level) && decide (d.level ≤ 3) && decide (0 < d.seenCount)
  | none => false

def claimStruggling (sr : Nat → Option SpacedRepData) (q : Nat) : Bool :=
  match sr q with
  | some d => decide (d.level = 0) && decide (0 < d.seenCount)
  | none => false

def claimNotStarted (sr : Nat → Option SpacedRepData) (q : Nat) : Bool :=
  match sr q with
  | some d => decide (d.seenCount = 0)
  | none => true

/-! ## Round state machine (`js/quiz.js` over the state in `js/state.js`) -/

/-- `ROUND_TYPES`. -/
inductive RoundType where
  | base
  | reviewWrong
  | reviewNotSure
  | reviewDontKnow
  | reviewAll
  | reviewWeak
  deriving DecidableEq, Repr

/-- `MODES`: the `currentMode` field holds one of these or `null`. -/
inductive Mode where
  | learning
  | exam
  | smart
  deriving DecidableEq, Repr

/-- Immutable question content: the answer mapping (letter, text) and the
`correct` letter list. -/
structure Question where
  answers : List (String × String)
  correct : List String
  deriving DecidableEq, Repr

/-- The slice of the module-level `state` object that the round state
machine reads and writes.  Sparse JS objects become `Nat → Option _`
maps; `wrongCounts[qid] || 0` becomes a total map defaulting to 0. -/
structure QuizState where
  questions : Nat → Option Question
  stack : List Nat
  currentIndex : Nat
  questionState : Nat → Option QuestionState
  answerOrder : Nat → Option (List (String × String))
  currentMode : Option Mode
  currentRoundType : RoundType
  wrongCounts : Nat → Nat
  questionStartTime : Nat

/-- `getCurrentQuestionId()`: `state.stack[state.currentIndex]`, which is
`undefined` when the index is out of range. -/
def getCurrentQuestionId (s : QuizState) : Option Nat :=
  s.stack[s.currentIndex]?

/-- `isLearningMode()`. -/
def isLearningMode (s : QuizState) : Bool :=
  s.currentMode = some .learning

/-- `initStack(questionIds)`: replaces the stack, resets the index and
clears the per-question state and answer-order maps. -/
def initStack (questionIds : List Nat) (s : QuizState) : QuizState :=
  { s with stack := questionIds, currentIndex := 0,
           questionState := fun _ => none, answerOrder := fun _ => none }

/-- `startRound(roundType, questionIds)`: `!questionIds?.length` fails
fast, otherwise set the round type, rebuild the stack and reset the
per-question clock (`resetQuestionTimer` sets the start time to now). -/
def startRound (roundType : RoundType) (questionIds : List Nat) (now : Nat)
    (s : QuizState) : Bool × QuizState :=
  if questionIds.isEmpty then (false, s)
  else
    (true, { initStack questionIds { s with currentRoundType := roundType } with
               questionStartTime := now })

/-- `updateQuestionState(qid, updates)` with a full five-field update
object: spreading the update over the existing record replaces every
field. -/
def setQuestionState (qid : Nat) (qs : QuestionState) (s : QuizState) : QuizState :=
  { s with questionState := fun q => if q = qid then some qs else s.questionState q }

/-- JS `a || b` on string-or-null values: `null`, `undefined` and `""`
are falsy. -/
def jsStrOr (a b : Option String) : Option String :=
  match a with
  | some x => if x = "" then b else some x
  | none => b

/-- `updateDraftState(selectedAnswer, dontKnow, notSure)` (`quiz.js`).
The `!qid` guard also fires on question id 0 (JS number truthiness); the
learning-mode guard keeps a terminal status untouched; otherwise the
record is rebuilt with `selectedAnswer || existing?.selectedAnswer ||
null`, the existing status and time, and the passed flags. -/
def updateDraftState (selectedAnswer : Option String) (dontKnow notSure : Bool)
    (s : QuizState) : QuizState :=
  match getCurrentQuestionId s with
  | none => s
  | some qid =>
    if qid = 0 then s
    else
      let existing := s.questionState qid
      if isLearningMode s && (match existing with
          | some e => e.status != AnswerStatus.unanswered
          | none => false) then
        s
      else
        setQuestionState qid
          { selectedAnswer := jsStrOr (jsStrOr selectedAnswer (existing.bind (·.selectedAnswer))) none
            status := (existing.map (·.status)).getD .unanswered
            dontKnow := dontKnow
            notSure := notSure
            time := (existing.map (·.time)).getD 0 } s

/-- `incrementWrongCount(qid)`. -/
def incrementWrongCount (qid : Nat) (s : QuizState) : QuizState :=
  { s with wrongCounts := fun q => if q = qid then s.wrongCounts q + 1 else s.wrongCounts q }

/-- `checkCurrentQuestion(selectedAnswer)` (`quiz.js`).  Both the
`!selectedAnswer` and `!qid || !question` guards return `false` without
touching state (`""` and id 0 are falsy in JS); `getQuestionElapsed()` is
passed in as `elapsed`. -/
def checkCurrentQuestion (selectedAnswer : Option String) (elapsed : Nat)
    (s : QuizState) : Bool × QuizState :=
  match selectedAnswer with
  | none => (false, s)
  | some a =>
    if a = "" then (false, s)
    else
      match getCurrentQuestionId s with
      | none => (false, s)
      | some qid =>
        if qid = 0 then (false, s)
        else
          match s.questions qid with
          | none => (false, s)
          | some question =>
            let isCorrect := question.correct.contains a
            let existing := s.questionState qid
            let s' := setQuestionState qid
              { selectedAnswer := some a
                status := if isCorrect then .correct else .wrong
                dontKnow := (existing.map (·.dontKnow)).getD false
                notSure := (existing.map (·.notSure)).getD false
                time := elapsed } s
            (true, if isCorrect then s' else incrementWrongCount qid s')

/-! ## Statistics and review sets (`quiz.js` `computeStats`,
`getReviewQuestions`) -/

structure ExamStats where
  correct : Nat
  wrong : List Nat
  dk : List Nat
  ns : List Nat
  correctButNotSure : List Nat
  totalTime : Nat
  deriving DecidableEq, Repr

/-- One iteration of the `forEach` body of `computeStats`: skip records
that are absent or unanswered, collect the flag lists and time, then
branch on correctness. -/
def statsStep (qstate : Nat → Option QuestionState) (st : ExamStats) (qid : Nat) :
    ExamStats :=
  match qstate qid with
  | none => st
  | some s =>
    if s.status = .unanswered then st
    else
      let st1 : ExamStats :=
        { st with dk := if s.dontKnow then st.dk ++ [qid] else st.dk
                  ns := if s.notSure then st.ns ++ [qid] else st.ns
                  totalTime := st.totalTime + s.time }
      if s.status = .correct then
        { st1 with correct := st1.correct + 1
                   correctButNotSure :=
                     if s.notSure then st1.correctButNotSure ++ [qid]
                     else st1.correctButNotSure }
      else
        { st1 with wrong := st1.wrong ++ [qid] }

def computeStats (qstate : Nat → Option QuestionState) (questionIds : List Nat) :
    ExamStats :=
  questionIds.foldl (statsStep qstate) ⟨0, [], [], [], [], 0⟩

/-- `[...new Set(l)]`: deduplication keeping the first occurrence of each
element, in order. -/
def jsSetDedup : List Nat → List Nat :=
  go []
where
  go (seen : List Nat) : List Nat → List Nat
    | [] => []
    | a :: rest => if a ∈ seen then go seen rest else a :: go (a :: seen) rest

/-- `getReviewQuestions(baseState, baseStack, reviewType)`: empty when
either snapshot half is missing, otherwise the stats list selected by the
review type, with `REVIEW_ALL` the deduplicated concatenation
`[...new Set([...wrong, ...dk, ...ns])]`. -/
def getReviewQuestions (baseState : Option (Nat → Option QuestionState))
    (baseStack : Option (List Nat)) (reviewType : RoundType) : List Nat :=
  match baseState, baseStack with
  | some bs, some bstack =>
    let stats := computeStats bs bstack
    match reviewType with
    | .reviewWrong => stats.wrong
    | .reviewNotSure => stats.ns
    | .reviewDontKnow => stats.dk
    | .reviewAll => jsSetDedup (stats.wrong ++ stats.dk ++ stats.ns)
    | _ => []
  | _, _ => []

/-! ## Session-end spaced-repetition update (`main.js` `finishExam`)

For smart and learning sessions `finishExam` walks the stack and calls
`updateSpacedRepLevel` for every question whose state exists and is not
unanswered; nothing in `finishExam` (or anywhere else) calls
`markQuestionSeen`. -/

def srStep (qstate : Nat → Option QuestionState) (now : Nat)
    (acc : Nat → Option SpacedRepData) (qid : Nat) : Nat → Option SpacedRepData :=
  match qstate qid with
  | some qs =>
    if qs.status ≠ .unanswered then
      fun q =>
        if q = qid then
          some (updateSpacedRepLevel (getSpacedRepData acc qid)
                  (qs.status = .correct) qs.notSure now)
        else acc q
    else acc
  | none => acc

def finishExamSpacedRep (stack : List Nat) (qstate : Nat → Option QuestionState)
    (now : Nat) (sr : Nat → Option SpacedRepData) : Nat → Option SpacedRepData :=
  stack.foldl (srStep qstate now) sr

/-! ## Detailed exam history (`js/state.js` `addExamHistory`) -/

/-- The summary payload passed to `addExamHistory` by `finishExam`
(identifier added inside, detail fields kept abstract but concrete enough
for decidable equality). -/
structure ExamHistoryRecord where
  id : String
  date : String
  mode : String
  total : Nat
  correct : Nat
  deriving DecidableEq, Repr

/-- `addExamHistory(examResult)`: push `{ id: 'exam_' + Date.now(),
...examResult }` then `slice(-50)` when the length exceeds 50. -/
def addExamHistory (now : Nat) (date mode : String) (total correct : Nat)
    (examHistory : List ExamHistoryRecord) : List ExamHistoryRecord :=
  let h := examHistory ++ [{ id := "exam_" ++ toString now, date := date,
                             mode := mode, total := total, correct := correct }]
  if 50 < h.length then h.drop (h.length - 50) else h

/-! ## Sync reconciler (`js/storage.js` `onCloudDataChange`,
`js/state.js` `applyData`)

The persisted document per profile.  Every field may be absent on the
wire; `Option` models field presence.  JS `Set`s are rebuilt from arrays
with `new Set(...)`, which keeps the first occurrence of each element. -/

structure HistoryEntry where
  date : String
  mode : String
  total : Nat
  correct : Nat
  pct : Nat
  avgTime : Nat
  deriving DecidableEq, Repr

structure QuestionMetaEntry where
  flagged : Bool
  note : String
  deriving DecidableEq, Repr

structure CloudData where
  timestamp : Option Nat
  completedLearning : Option (List Nat)
  completedExam : Option (List Nat)
  history : Option (List HistoryEntry)
  wrongCounts : Option (List (Nat × Nat))
  exams : Option (List (List Nat))
  questionMeta : Option (List (Nat × QuestionMetaEntry))
  spacedRepetition : Option (List (Nat × SpacedRepData))
  examHistory : Option (List ExamHistoryRecord)
  deriving DecidableEq, Repr

/-- The persisted slice of the local `state` object that `applyData`
mutates, together with the sync bookkeeping fields it reads. -/
structure LocalStore where
  completedLearning : List Nat
  completedExam : List Nat
  history : List HistoryEntry
  wrongCounts : List (Nat × Nat)
  exams : List (List Nat)
  questionMeta : List (Nat × QuestionMetaEntry)
  spacedRepetition : List (Nat × SpacedRepData)
  examHistory : List ExamHistoryRecord
  lastCloudTimestamp : Nat
  isSaving : Bool
  deriving DecidableEq, Repr

/-- `applyData(data)` (`state.js`): each truthy field replaces the local
one.  Empty arrays and empty objects are truthy in JS, so every present
field is applied — except `exams`, guarded by `data.exams?.length`, which
is applied only when non-empty.  `lastCloudTimestamp` becomes
`data.timestamp || 0`. -/
def applyData (d : CloudData) (s : LocalStore) : LocalStore :=
  { s with
    completedLearning :=
      match d.completedLearning with
      | some l => jsSetDedup l
      | none => s.completedLearning
    completedExam :=
      match d.completedExam with
      | some l => jsSetDedup l
      | none => s.completedExam
    history := d.history.getD s.history
    wrongCounts := d.wrongCounts.getD s.wrongCounts
    exams :=
      match d.exams with
      | some e => if e.length ≠ 0 then e else s.exams
      | none => s.exams
    questionMeta := d.questionMeta.getD s.questionMeta
    spacedRepetition := d.spacedRepetition.getD s.spacedRepetition
    examHistory := d.examHistory.getD s.examHistory
    lastCloudTimestamp := d.timestamp.getD 0 }

/-- `onCloudDataChange(snapshot)` (`storage.js`): ignore everything while
a save is in flight, ignore an empty snapshot, and apply the payload only
when `data.timestamp && data.timestamp > getLastCloudTimestamp()` (a zero
timestamp is falsy). -/
def onCloudDataChange (snapshot : Option CloudData) (s : LocalStore) : LocalStore :=
  if s.isSaving then s
  else
    match snapshot with
    | none => s
    | some d =>
      match d.timestamp with
      | some ts => if ts ≠ 0 ∧ s.lastCloudTimestamp < ts then applyData d s else s
      | none => s

/-! ## Theorems -/

/-- C2: for every spaced-repetition record with level in [0,5] and any
single answer event, the updated level is `clamp(level + delta, 0, 5)`
with delta +2 for correct-and-confident, +1 for correct-but-not-sure and
-2 for incorrect regardless of confidence; the new level is always in
[0,5], and a correct-and-confident answer at level 5 leaves it at 5. -/
theorem updateSpacedRepLevel_clamped (d : SpacedRepData) (c ns : Bool) (now : Nat)
    (h : d.level ≤ 5) :
    (updateSpacedRepLevel d c ns now).level
      = (max 0 (min 5 ((d.level : Int) + (if c then (if ns then 1 else 2) else -2)))).toNat
    ∧ (updateSpacedRepLevel d c ns now).level ≤ 5
    ∧ (d.level = 5 → c = true → ns = false → (updateSpacedRepLevel d c ns now).level = 5) := by
  have hrw : (updateSpacedRepLevel d c ns now).level
      = (max 0 (min (MAX_LEVEL : Int) ((d.level : Int) +
          (if c then (if ns then CORRECT_NOT_SURE else CORRECT_SURE) else WRONG)))).toNat := rfl
  refine ⟨rfl, ?_, ?_⟩
  · rw [hrw]
    simp only [MAX_LEVEL, CORRECT_SURE, CORRECT_NOT_SURE, WRONG]
    split_ifs <;> omega
  · intro h5 hc hns
    subst hc hns
    rw [hrw, h5]
    simp only [MAX_LEVEL, CORRECT_SURE, CORRECT_NOT_SURE, WRONG]
    split_ifs <;> omega

theorem updateSpacedRepLevel_clamped_witness :
    ((5 : Nat) ≤ 5)
    ∧ (updateSpacedRepLevel ⟨5, 0, 3, none⟩ true false 100).level = 5 :=
  ⟨by decide,
   (updateSpacedRepLevel_clamped ⟨5, 0, 3, none⟩ true false 100 (by decide)).2.2
     rfl rfl rfl⟩

/-- C3 counterexample: in a one-question smart session whose single
question 7 (session position 0) was answered correctly, the session-end
spaced-repetition update increments `seenCount` and sets `lastSeen`, but
leaves `lastSeenPosition` absent instead of setting it to the question's
position 0: `markQuestionSeen` is never invoked. -/
def c3QState : Nat → Option QuestionState := fun q =>
  if q = 7 then
    some { selectedAnswer := none, status := .correct, dontKnow := false,
           notSure := false, time := 3 }
  else none

def c3Result : Nat → Option SpacedRepData :=
  finishExamSpacedRep [7] c3QState 1000 (fun _ => none)

theorem finishExam_lastSeenPosition_cx :
    c3Result 7 = some { level := 2, lastSeen := 1000, seenCount := 1,
                        lastSeenPosition := none }
    ∧ (c3Result 7).map SpacedRepData.lastSeenPosition ≠ some (some 0) := by
  constructor
  · rfl
  · decide

/-- C3 amended: after the level update applied to each answered question
at session end, the question's `seenCount` is incremented by exactly 1 and
its `lastSeen` is set to the current time, but `lastSeenPosition` is left
unchanged: neither `updateSpacedRepLevel` nor the session-end walk in
`finishExam` ever writes it. -/
theorem updateSpacedRepLevel_seen_fields (d : SpacedRepData) (c ns : Bool) (now : Nat) :
    (updateSpacedRepLevel d c ns now).seenCount = d.seenCount + 1
    ∧ (updateSpacedRepLevel d c ns now).lastSeen = now
    ∧ (updateSpacedRepLevel d c ns now).lastSeenPosition = d.lastSeenPosition
    ∧ ∀ (stack : List Nat) (qstate : Nat → Option QuestionState)
        (sr : Nat → Option SpacedRepData) (q : Nat),
        (finishExamSpacedRep stack qstate now sr q).bind SpacedRepData.lastSeenPosition
          = (sr q).bind SpacedRepData.lastSeenPosition := by
  have hstep : ∀ (qst : Nat → Option QuestionState) (acc : Nat → Option SpacedRepData)
      (a q : Nat),
      (srStep qst now acc a q).bind SpacedRepData.lastSeenPosition
        = (acc q).bind SpacedRepData.lastSeenPosition := by
    intro qst acc a q
    unfold srStep
    rcases hqa : qst a with _ | qs
    · rfl
    · show ((if qs.status ≠ AnswerStatus.unanswered then fun q =>
            if q = a then
              some (updateSpacedRepLevel (getSpacedRepData acc a)
                      (qs.status = AnswerStatus.correct) qs.notSure now)
            else acc q
          else acc) q).bind SpacedRepData.lastSeenPosition
          = (acc q).bind SpacedRepData.lastSeenPosition
      split
      · by_cases hqq : q = a
        · subst hqq
          rcases hsq : acc q with _ | dd <;>
            simp [getSpacedRepData, hsq, updateSpacedRepLevel, defaultSpacedRep]
        · simp [hqq]
      · rfl
  refine ⟨rfl, rfl, rfl, ?_⟩
  intro stack qstate sr q
  induction stack generalizing sr with
  | nil => rfl
  | cons a rest ih =>
    show (finishExamSpacedRep rest qstate now (srStep qstate now sr a) q).bind
          SpacedRepData.lastSeenPosition
        = (sr q).bind SpacedRepData.lastSeenPosition
    rw [ih (srStep qstate now sr a), hstep qstate sr a q]

/-- C9: `addExamHistory` keeps the store at or below 50 records; adding
to a store of exactly 50 yields exactly 50 records with the oldest (head)
evicted and the remaining records in insertion order. -/
theorem addExamHistory_bounded (now : Nat) (date mode : String) (total correct : Nat)
    (hist : List ExamHistoryRecord) :
    (addExamHistory now date mode total correct hist).length ≤ 50
    ∧ (hist.length = 50 →
        addExamHistory now date mode total correct hist
          = hist.tail ++ [{ id := "exam_" ++ toString now, date := date, mode := mode,
                            total := total, correct := correct }]
        ∧ (addExamHistory now date mode total correct hist).length = 50) := by
  constructor
  · simp only [addExamHistory]
    split
    · simp only [List.length_drop]
      omega
    · omega
  · intro h50
    have hlen : (hist ++ [(⟨"exam_" ++ toString now, date, mode, total, correct⟩ :
        ExamHistoryRecord)]).length = 51 := by
      simp [h50]
    constructor
    · simp only [addExamHistory]
      rw [if_pos (show 50 < _ by omega)]
      rw [hlen]
      rw [List.drop_append_eq_append_drop]
      simp [h50, List.drop_one]
    · simp only [addExamHistory]
      rw [if_pos (show 50 < _ by omega)]
      simp [List.length_drop, hlen]

theorem addExamHistory_bounded_witness :
    ((List.replicate 50 (⟨"x", "d", "m", 0, 0⟩ : ExamHistoryRecord)).length ≤ 50)
    ∧ (addExamHistory 7 "d2" "m2" 3 2
         (List.replicate 50 (⟨"x", "d", "m", 0, 0⟩ : ExamHistoryRecord))).length = 50 :=
  ⟨by simp,
   ((addExamHistory_bounded 7 "d2" "m2" 3 2
       (List.replicate 50 ⟨"x", "d", "m", 0, 0⟩)).2 (by simp)).2⟩

/-- C4: over any question universe and any spaced-repetition map, the
four smart-mode categories count every id exactly once: the code's
branches agree with the claim's category predicates, the four counts sum
to the universe size, and each id falls in exactly one category. -/
theorem getSmartStats_partition (allQids : List Nat) (sr : Nat → Option SpacedRepData) :
    (getSmartStats allQids sr).mastered + (getSmartStats allQids sr).learning
        + (getSmartStats allQids sr).struggling + (getSmartStats allQids sr).notStarted
      = (getSmartStats allQids sr).total
    ∧ (getSmartStats allQids sr).total = allQids.length
    ∧ (∀ q, claimMastered sr q = true ↔ classify sr q = .mastered)
    ∧ (∀ q, claimLearning sr q = true ↔ classify sr q = .learning)
    ∧ (∀ q, claimStruggling sr q = true ↔ classify sr q = .struggling)
    ∧ (∀ q, claimNotStarted sr q = true ↔ classify sr q = .notStarted)
    ∧ (∀ q, (if claimMastered sr q then 1 else 0) + (if claimLearning sr q then 1 else 0)
          + (if claimStruggling sr q then 1 else 0)
          + (if claimNotStarted sr q then 1 else 0) = 1) := by
  have hM : ∀ q, claimMastered sr q = true ↔ classify sr q = .mastered := by
    intro q
    rcases h : sr q with _ | dd
    · simp [claimMastered, classify, h]
    · simp only [claimMastered, classify, h, Bool.and_eq_true, decide_eq_true_eq]
      by_cases h1 : dd.seenCount = 0 <;> by_cases h2 : 4 ≤ dd.level <;>
        by_cases h3 : 1 ≤ dd.level <;> simp [h1, h2, h3] <;> omega
  have hL : ∀ q, claimLearning sr q = true ↔ classify sr q = .learning := by
    intro q
    rcases h : sr q with _ | dd
    · simp [claimLearning, classify, h]
    · simp only [claimLearning, classify, h, Bool.and_eq_true, decide_eq_true_eq]
      by_cases h1 : dd.seenCount = 0 <;> by_cases h2 : 4 ≤ dd.level <;>
        by_cases h3 : 1 ≤ dd.level <;> simp [h1, h2, h3] <;> omega
  have hS : ∀ q, claimStruggling sr q = true ↔ classify sr q = .struggling := by
    intro q
    rcases h : sr q with _ | dd
    · simp [claimStruggling, classify, h]
    · simp only [claimStruggling, classify, h, Bool.and_eq_true, decide_eq_true_eq]
      by_cases h1 : dd.seenCount = 0 <;> by_cases h2 : 4 ≤ dd.level <;>
        by_cases h3 : 1 ≤ dd.level <;> simp [h1, h2, h3] <;> omega
  have hN : ∀ q, claimNotStarted sr q = true ↔ classify sr q = .notStarted := by
    intro q
    rcases h : sr q with _ | dd
    · simp [claimNotStarted, classify, h]
    · simp only [claimNotStarted, classify, h, decide_eq_true_eq]
      by_cases h1 : dd.seenCount = 0 <;> by_cases h2 : 4 ≤ dd.level <;>
        by_cases h3 : 1 ≤ dd.level <;> simp [h1, h2, h3]
  have hsum : allQids.countP (fun q => classify sr q = .mastered)
        + allQids.countP (fun q => classify sr q = .learning)
        + allQids.countP (fun q => classify sr q = .struggling)
        + allQids.countP (fun q => classify sr q = .notStarted)
      = allQids.length := by
    induction allQids with
    | nil => rfl
    | cons a t ih =>
      simp only [List.countP_cons, List.length_cons]
      rcases hc : classify sr a <;> simp [hc] <;> omega
  refine ⟨hsum, rfl, hM, hL, hS, hN, ?_⟩
  intro q
  have em : claimMastered sr q = decide (classify sr q = SmartCategory.mastered) := by
    rw [Bool.eq_iff_iff]
    simp only [decide_eq_true_eq]
    exact hM q
  have el : claimLearning sr q = decide (classify sr q = SmartCategory.learning) := by
    rw [Bool.eq_iff_iff]
    simp only [decide_eq_true_eq]
    exact hL q
  have es : claimStruggling sr q = decide (classify sr q = SmartCategory.struggling) := by
    rw [Bool.eq_iff_iff]
    simp only [decide_eq_true_eq]
    exact hS q
  have en : claimNotStarted sr q = decide (classify sr q = SmartCategory.notStarted) := by
    rw [Bool.eq_iff_iff]
    simp only [decide_eq_true_eq]
    exact hN q
  rw [em, el, es, en]
  rcases hc : classify sr q <;> simp [hc]

/-- The `INTERVALS[level] || 50` lookup never exceeds 50. -/
theorem intervalForLevel_le (n : Nat) : intervalForLevel n ≤ 50 := by
  unfold intervalForLevel
  split <;> omega

/-- C5: a never-seen question's priority is exactly -1000 plus the jitter
`r * 100` with `r = Math.random() ∈ [0,1)`, and it is strictly lower than
the priority of any seen question whose record the program can produce
(level clamped to [0,5], `lastSeenPosition` never written, hence 0 after
the `|| 0` default), so new questions sort before seen ones in the
generated queue (which scores at `currentPosition = 0`). -/
theorem calculatePriority_new_first (d1 d2 : SpacedRepData) (r1 r2 : Rat)
    (h1 : d1.seenCount = 0) (hr0 : 0 ≤ r1) (hr1 : r1 < 1)
    (h2 : d2.seenCount ≠ 0) (hl : d2.level ≤ 5) (hp : d2.lastSeenPosition.getD 0 = 0) :
    calculatePriority d1 0 r1 = -1000 + r1 * 100
    ∧ calculatePriority d1 0 r1 < calculatePriority d2 0 r2 := by
  have e1 : calculatePriority d1 0 r1 = -1000 + r1 * 100 := by
    simp [calculatePriority, h1]
  have e2 : calculatePriority d2 0 r2
      = -(intervalForLevel d2.level : Rat) - (d2.level : Rat) * 10 := by
    simp only [calculatePriority, h2, ite_false, if_false]
    rw [hp]
    push_cast
    ring
  have hi : (intervalForLevel d2.level : Rat) ≤ 50 := by
    exact_mod_cast intervalForLevel_le d2.level
  have hlv : (d2.level : Rat) ≤ 5 := by exact_mod_cast hl
  have h100 : r1 * 100 < 100 := by
    have := mul_lt_mul_of_pos_right hr1 (show (0 : Rat) < 100 by norm_num)
    simpa using this
  refine ⟨e1, ?_⟩
  rw [e1, e2]
  linarith

theorem calculatePriority_new_first_witness :
    calculatePriority ⟨0, 0, 0, none⟩ 0 (1/2) = -1000 + (1/2) * 100
    ∧ calculatePriority ⟨0, 0, 0, none⟩ 0 (1/2) < calculatePriority ⟨3, 5, 2, none⟩ 0 0 :=
  calculatePriority_new_first ⟨0, 0, 0, none⟩ ⟨3, 5, 2, none⟩ (1/2) 0 rfl
    (by norm_num) (by norm_num) (by decide) (by decide) rfl

/-- C6: `startRound` on an empty id list reports failure and leaves the
state untouched; on a non-empty list it reports success, sets the round
type, resets the index to 0, clears the per-question draft state and the
answer orders, and the current question id is the first id of the list. -/
theorem startRound_spec (t : RoundType) (ids : List Nat) (now : Nat) (s : QuizState) :
    (ids = [] → startRound t ids now s = (false, s))
    ∧ (ids ≠ [] →
        (startRound t ids now s).1 = true
        ∧ (startRound t ids now s).2.currentRoundType = t
        ∧ (startRound t ids now s).2.currentIndex = 0
        ∧ (∀ q, (startRound t ids now s).2.questionState q = none)
        ∧ (∀ q, (startRound t ids now s).2.answerOrder q = none)
        ∧ getCurrentQuestionId (startRound t ids now s).2 = ids.head?) := by
  constructor
  · intro he
    subst he
    rfl
  · intro hne
    rcases ids with _ | ⟨a, l⟩
    · exact absurd rfl hne
    · exact ⟨rfl, rfl, rfl, fun _ => rfl, fun _ => rfl,
        by simp [getCurrentQuestionId, startRound, initStack]⟩

/-- A concrete idle state used to instantiate the round-machine theorems. -/
def sampleQuizState : QuizState where
  questions := fun _ => none
  stack := []
  currentIndex := 0
  questionState := fun _ => none
  answerOrder := fun _ => none
  currentMode := none
  currentRoundType := .base
  wrongCounts := fun _ => 0
  questionStartTime := 0

theorem startRound_spec_witness :
    ([4, 5] ≠ ([] : List Nat))
    ∧ (startRound .reviewWrong [4, 5] 9 sampleQuizState).1 = true
    ∧ getCurrentQuestionId (startRound .reviewWrong [4, 5] 9 sampleQuizState).2 = some 4 := by
  have h := (startRound_spec .reviewWrong [4, 5] 9 sampleQuizState).2 (by simp)
  exact ⟨by simp, h.1, h.2.2.2.2.2⟩

/-- C7: `checkCurrentQuestion` is a no-op returning `false` when no
answer is selected; otherwise the stored status is `correct` exactly when
the selected letter belongs to the question's correct-letter set, the
elapsed time is recorded on the question, and the question's global wrong
count is incremented exactly when the answer is incorrect (all other
wrong counts untouched). -/
theorem checkCurrentQuestion_spec (s : QuizState) (a : String) (elapsed qid : Nat)
    (question : Question)
    (ha : a ≠ "") (hq : getCurrentQuestionId s = some qid) (h0 : qid ≠ 0)
    (hqq : s.questions qid = some question) :
    (∀ (s' : QuizState) (e : Nat), checkCurrentQuestion none e s' = (false, s'))
    ∧ (checkCurrentQuestion (some a) elapsed s).1 = true
    ∧ (∃ st, (checkCurrentQuestion (some a) elapsed s).2.questionState qid = some st
        ∧ (st.status = .correct ↔ a ∈ question.correct)
        ∧ (st.status = .wrong ↔ a ∉ question.correct)
        ∧ st.time = elapsed
        ∧ st.selectedAnswer = some a)
    ∧ ((checkCurrentQuestion (some a) elapsed s).2.wrongCounts qid
        = if a ∈ question.correct then s.wrongCounts qid else s.wrongCounts qid + 1)
    ∧ (∀ x, x ≠ qid →
        (checkCurrentQuestion (some a) elapsed s).2.wrongCounts x = s.wrongCounts x) := by
  by_cases hmem' : a ∈ question.correct
  · have hred : checkCurrentQuestion (some a) elapsed s
        = (true, setQuestionState qid
            { selectedAnswer := some a, status := .correct,
              dontKnow := ((s.questionState qid).map (·.dontKnow)).getD false,
              notSure := ((s.questionState qid).map (·.notSure)).getD false,
              time := elapsed } s) := by
      simp [checkCurrentQuestion, ha, hq, h0, hqq, hmem']
    refine ⟨fun _ _ => rfl, by rw [hred],
      ⟨{ selectedAnswer := some a, status := .correct,
         dontKnow := ((s.questionState qid).map (·.dontKnow)).getD false,
         notSure := ((s.questionState qid).map (·.notSure)).getD false,
         time := elapsed },
       by rw [hred]; simp [setQuestionState],
       by simp [hmem'], by simp [hmem'], rfl, rfl⟩, ?_, ?_⟩
    · rw [hred, if_pos hmem']
      simp [setQuestionState]
    · intro x hx
      rw [hred]
      simp [setQuestionState]
  · have hred : checkCurrentQuestion (some a) elapsed s
        = (true, incrementWrongCount qid (setQuestionState qid
            { selectedAnswer := some a, status := .wrong,
              dontKnow := ((s.questionState qid).map (·.dontKnow)).getD false,
              notSure := ((s.questionState qid).map (·.notSure)).getD false,
              time := elapsed } s)) := by
      simp [checkCurrentQuestion, ha, hq, h0, hqq, hmem']
    refine ⟨fun _ _ => rfl, by rw [hred],
      ⟨{ selectedAnswer := some a, status := .wrong,
         dontKnow := ((s.questionState qid).map (·.dontKnow)).getD false,
         notSure := ((s.questionState qid).map (·.notSure)).getD false,
         time := elapsed },
       by rw [hred]; simp [incrementWrongCount, setQuestionState],
       by simp [hmem'], by simp [hmem'], rfl, rfl⟩, ?_, ?_⟩
    · rw [hred, if_neg hmem']
      simp [incrementWrongCount, setQuestionState]
    · intro x hx
      rw [hred]
      simp [incrementWrongCount, setQuestionState, hx]

/-- A concrete in-progress state: stack [3], current question 3 with
answers A/B and correct letter "B". -/
def sampleCheckState : QuizState where
  questions := fun q =>
    if q = 3 then some { answers := [("A", "ans a"), ("B", "ans b")], correct := ["B"] }
    else none
  stack := [3]
  currentIndex := 0
  questionState := fun _ => none
  answerOrder := fun _ => none
  currentMode := some .exam
  currentRoundType := .base
  wrongCounts := fun _ => 0
  questionStartTime := 0

theorem checkCurrentQuestion_spec_witness :
    (checkCurrentQuestion (some "A") 12 sampleCheckState).1 = true
    ∧ (checkCurrentQuestion (some "A") 12 sampleCheckState).2.wrongCounts 3
        = if "A" ∈ ["B"] then sampleCheckState.wrongCounts 3
          else sampleCheckState.wrongCounts 3 + 1 := by
  have h := checkCurrentQuestion_spec sampleCheckState "A" 12 3
    { answers := [("A", "ans a"), ("B", "ans b")], correct := ["B"] }
    (by decide) rfl (by decide) rfl
  exact ⟨h.2.1, h.2.2.2.1⟩

/-- C10: calling `updateDraftState` with a null selection on a question
whose stored record already holds a selection preserves that selection,
never changes the stored status (or time), only overwrites the `dontKnow`
and `notSure` flags with the passed values (when the learning-mode guard
does not suppress the update entirely), and leaves every other question's
record untouched. -/
theorem updateDraftState_frame (s : QuizState) (dk ns : Bool) (qid : Nat)
    (ex : QuestionState) (a : String)
    (hq : getCurrentQuestionId s = some qid) (h0 : qid ≠ 0)
    (hex : s.questionState qid = some ex) (hsel : ex.selectedAnswer = some a)
    (ha : a ≠ "") :
    ∃ e', (updateDraftState none dk ns s).questionState qid = some e'
      ∧ e'.selectedAnswer = some a
      ∧ e'.status = ex.status
      ∧ e'.time = ex.time
      ∧ ((isLearningMode s && (ex.status != AnswerStatus.unanswered)) = false →
          e'.dontKnow = dk ∧ e'.notSure = ns)
      ∧ ∀ x, x ≠ qid → (updateDraftState none dk ns s).questionState x
          = s.questionState x := by
  by_cases hg : isLearningMode s && (ex.status != AnswerStatus.unanswered)
  · have hres : updateDraftState none dk ns s = s := by
      simp [updateDraftState, hq, h0, hex, hg]
    refine ⟨ex, by rw [hres]; exact hex, hsel, rfl, rfl, ?_, fun x _ => by rw [hres]⟩
    intro hcontra
    rw [hg] at hcontra
    exact absurd hcontra (by simp)
  · have hres : updateDraftState none dk ns s
        = setQuestionState qid
            { selectedAnswer := some a, status := ex.status,
              dontKnow := dk, notSure := ns, time := ex.time } s := by
      simp [updateDraftState, hq, h0, hex, hg, jsStrOr, hsel, ha]
    refine ⟨{ selectedAnswer := some a, status := ex.status, dontKnow := dk,
              notSure := ns, time := ex.time },
      by rw [hres]; simp [setQuestionState], rfl, rfl, rfl,
      fun _ => ⟨rfl, rfl⟩, fun x hx => ?_⟩
    rw [hres]
    simp [setQuestionState, hx]

/-- A concrete learning-mode state: question 3 already answered correct
with stored selection "B". -/
def sampleDraftState : QuizState where
  questions := fun q =>
    if q = 3 then some { answers := [("A", "ans a"), ("B", "ans b")], correct := ["B"] }
    else none
  stack := [3]
  currentIndex := 0
  questionState := fun q =>
    if q = 3 then some { selectedAnswer := some "B", status := .correct,
                         dontKnow := false, notSure := false, time := 4 }
    else none
  answerOrder := fun _ => none
  currentMode := some .exam
  currentRoundType := .base
  wrongCounts := fun _ => 0
  questionStartTime := 0

theorem updateDraftState_frame_witness :
    ∃ e', (updateDraftState none true false sampleDraftState).questionState 3 = some e'
      ∧ e'.selectedAnswer = some "B"
      ∧ e'.status = AnswerStatus.correct := by
  have h := updateDraftState_frame sampleDraftState true false 3
    { selectedAnswer := some "B", status := .correct, dontKnow := false,
      notSure := false, time := 4 }
    "B" rfl (by decide) rfl rfl (by decide)
  exact ⟨h.choose, h.choose_spec.1, h.choose_spec.2.1, h.choose_spec.2.2.1⟩

/-! Predicates characterising the three lists `computeStats` collects:
answered-and-wrong, answered-and-notSure, answered-and-dontKnow. -/

def isWrongAnswered (qstate : Nat → Option QuestionState) (q : Nat) : Bool :=
  match qstate q with
  | some st => st.status == .wrong
  | none => false

def isAnsweredNotSure (qstate : Nat → Option QuestionState) (q : Nat) : Bool :=
  match qstate q with
  | some st => st.status != .unanswered && st.notSure
  | none => false

def isAnsweredDontKnow (qstate : Nat → Option QuestionState) (q : Nat) : Bool :=
  match qstate q with
  | some st => st.status != .unanswered && st.dontKnow
  | none => false

theorem statsStep_wrong (qstate : Nat → Option QuestionState) (st : ExamStats)
    (qid : Nat) :
    (statsStep qstate st qid).wrong
      = st.wrong ++ (if isWrongAnswered qstate qid then [qid] else []) := by
  unfold statsStep isWrongAnswered
  rcases h : qstate qid with _ | qs <;> simp only [h]
  · simp
  · obtain ⟨sel, stat, dk0, ns0, tm⟩ := qs
    rcases stat <;> simp

theorem statsStep_ns (qstate : Nat → Option QuestionState) (st : ExamStats)
    (qid : Nat) :
    (statsStep qstate st qid).ns
      = st.ns ++ (if isAnsweredNotSure qstate qid then [qid] else []) := by
  unfold statsStep isAnsweredNotSure
  rcases h : qstate qid with _ | qs <;> simp only [h]
  · simp
  · obtain ⟨sel, stat, dk0, ns0, tm⟩ := qs
    rcases stat <;> rcases ns0 <;> simp

theorem statsStep_dk (qstate : Nat → Option QuestionState) (st : ExamStats)
    (qid : Nat) :
    (statsStep qstate st qid).dk
      = st.dk ++ (if isAnsweredDontKnow qstate qid then [qid] else []) := by
  unfold statsStep isAnsweredDontKnow
  rcases h : qstate qid with _ | qs <;> simp only [h]
  · simp
  · obtain ⟨sel, stat, dk0, ns0, tm⟩ := qs
    rcases stat <;> rcases dk0 <;> simp

theorem foldl_statsStep_wrong (qstate : Nat → Option QuestionState) (ids : List Nat)
    (st : ExamStats) :
    (ids.foldl (statsStep qstate) st).wrong
      = st.wrong ++ ids.filter (isWrongAnswered qstate) := by
  induction ids generalizing st with
  | nil => simp
  | cons a t ih =>
    rw [List.foldl_cons, ih, statsStep_wrong, List.filter_cons]
    by_cases hp : isWrongAnswered qstate a <;> simp [hp]

theorem foldl_statsStep_ns (qstate : Nat → Option QuestionState) (ids : List Nat)
    (st : ExamStats) :
    (ids.foldl (statsStep qstate) st).ns
      = st.ns ++ ids.filter (isAnsweredNotSure qstate) := by
  induction ids generalizing st with
  | nil => simp
  | cons a t ih =>
    rw [List.foldl_cons, ih, statsStep_ns, List.filter_cons]
    by_cases hp : isAnsweredNotSure qstate a <;> simp [hp]

theorem foldl_statsStep_dk (qstate : Nat → Option QuestionState) (ids : List Nat)
    (st : ExamStats) :
    (ids.foldl (statsStep qstate) st).dk
      = st.dk ++ ids.filter (isAnsweredDontKnow qstate) := by
  induction ids generalizing st with
  | nil => simp
  | cons a t ih =>
    rw [List.foldl_cons, ih, statsStep_dk, List.filter_cons]
    by_cases hp : isAnsweredDontKnow qstate a <;> simp [hp]

theorem mem_jsSetDedup_go (l : List Nat) (seen : List Nat) (q : Nat) :
    q ∈ jsSetDedup.go seen l ↔ q ∈ l ∧ q ∉ seen := by
  induction l generalizing seen with
  | nil => simp [jsSetDedup.go]
  | cons a t ih =>
    simp only [jsSetDedup.go]
    by_cases ha : a ∈ seen
    · rw [if_pos ha, ih]
      simp only [List.mem_cons]
      constructor
      · rintro ⟨hq, hns⟩
        exact ⟨Or.inr hq, hns⟩
      · rintro ⟨hq | hq, hns⟩
        · exact absurd (hq ▸ ha) hns
        · exact ⟨hq, hns⟩
    · rw [if_neg ha]
      simp only [List.mem_cons, ih, List.mem_cons, not_or]
      by_cases hqa : q = a
      · subst hqa
        simp [ha]
      · simp [hqa]

theorem mem_jsSetDedup (l : List Nat) (q : Nat) : q ∈ jsSetDedup l ↔ q ∈ l := by
  rw [jsSetDedup, mem_jsSetDedup_go]
  simp

/-- The base-state snapshot of the spec's review-set example: question 5
wrong and notSure, question 7 wrong only, question 9 correct but
dontKnow. -/
def exampleBase : Nat → Option QuestionState := fun q =>
  if q = 5 then
    some { selectedAnswer := none, status := .wrong, dontKnow := false,
           notSure := true, time := 0 }
  else if q = 7 then
    some { selectedAnswer := none, status := .wrong, dontKnow := false,
           notSure := false, time := 0 }
  else if q = 9 then
    some { selectedAnswer := none, status := .correct, dontKnow := true,
           notSure := false, time := 0 }
  else none

/-- C8: review sets degrade to empty when either snapshot half is absent;
otherwise wrong/not-sure/dont-know review sets are exactly the
corresponding answered ids of the base stack, REVIEW_ALL is the
deduplicated union of the three, and the spec's worked example holds. -/
theorem getReviewQuestions_spec (bs : Nat → Option QuestionState) (bstack : List Nat) :
    (∀ (bstk : Option (List Nat)) (rt : RoundType), getReviewQuestions none bstk rt = [])
    ∧ (∀ (bso : Option (Nat → Option QuestionState)) (rt : RoundType),
        getReviewQuestions bso none rt = [])
    ∧ getReviewQuestions (some bs) (some bstack) .reviewWrong
        = bstack.filter (isWrongAnswered bs)
    ∧ getReviewQuestions (some bs) (some bstack) .reviewNotSure
        = bstack.filter (isAnsweredNotSure bs)
    ∧ getReviewQuestions (some bs) (some bstack) .reviewDontKnow
        = bstack.filter (isAnsweredDontKnow bs)
    ∧ (∀ q, q ∈ getReviewQuestions (some bs) (some bstack) .reviewAll
        ↔ q ∈ bstack ∧ (isWrongAnswered bs q
            ∨ isAnsweredDontKnow bs q ∨ isAnsweredNotSure bs q))
    ∧ getReviewQuestions (some exampleBase) (some [5, 7, 9]) .reviewAll = [5, 7, 9]
    ∧ getReviewQuestions (some exampleBase) (some [5, 7, 9]) .reviewWrong = [5, 7] := by
  have hw : ∀ bst, (computeStats bs bst).wrong = bst.filter (isWrongAnswered bs) := by
    intro bst
    rw [computeStats, foldl_statsStep_wrong]
    rfl
  have hn : ∀ bst, (computeStats bs bst).ns = bst.filter (isAnsweredNotSure bs) := by
    intro bst
    rw [computeStats, foldl_statsStep_ns]
    rfl
  have hd : ∀ bst, (computeStats bs bst).dk = bst.filter (isAnsweredDontKnow bs) := by
    intro bst
    rw [computeStats, foldl_statsStep_dk]
    rfl
  refine ⟨?_, ?_, hw bstack, hn bstack, hd bstack, ?_, by decide, by decide⟩
  · intro bstk rt
    rcases bstk with _ | bst <;> rfl
  · intro bso rt
    rcases bso with _ | b <;> rfl
  · intro q
    show q ∈ jsSetDedup ((computeStats bs bstack).wrong ++ (computeStats bs bstack).dk
          ++ (computeStats bs bstack).ns) ↔ _
    rw [mem_jsSetDedup, hw, hn, hd]
    simp only [List.mem_append, List.mem_filter]
    constructor
    · rintro ((⟨hq, hp⟩ | ⟨hq, hp⟩) | ⟨hq, hp⟩)
      · exact ⟨hq, Or.inl hp⟩
      · exact ⟨hq, Or.inr (Or.inl hp)⟩
      · exact ⟨hq, Or.inr (Or.inr hp)⟩
    · rintro ⟨hq, hp | hp | hp⟩
      · exact Or.inl (Or.inl ⟨hq, hp⟩)
      · exact Or.inl (Or.inr ⟨hq, hp⟩)
      · exact Or.inr ⟨hq, hp⟩

/-- C1 counterexample: with local `exams = [[1]]` and last-applied
timestamp 0, an inbound payload carrying timestamp 1 and the present
field `exams: []` is applied (1 > 0) yet does not replace `exams`: the
`data.exams?.length` truthiness guard skips an empty inbound array. -/
def c1Store : LocalStore where
  completedLearning := []
  completedExam := []
  history := []
  wrongCounts := []
  exams := [[1]]
  questionMeta := []
  spacedRepetition := []
  examHistory := []
  lastCloudTimestamp := 0
  isSaving := false

def c1Data : CloudData where
  timestamp := some 1
  completedLearning := none
  completedExam := none
  history := none
  wrongCounts := none
  exams := some []
  questionMeta := none
  spacedRepetition := none
  examHistory := none

theorem onCloudDataChange_exams_cx :
    c1Data.timestamp = some 1
    ∧ c1Store.lastCloudTimestamp < 1
    ∧ c1Data.exams = some []
    ∧ (onCloudDataChange (some c1Data) c1Store).exams = [[1]]
    ∧ (onCloudDataChange (some c1Data) c1Store).exams ≠ [] := by
  decide

/-- C1 amended: a missing snapshot, a missing timestamp, or a timestamp
at or below the last-applied one leaves the local store unchanged; a
strictly newer timestamp (outside an in-flight save) applies the payload:
the last-applied timestamp becomes the inbound one and every present
field replaces the local one — except `exams`, which is replaced only
when the inbound array is non-empty and kept otherwise. -/
theorem onCloudDataChange_spec (s : LocalStore) (d : CloudData) :
    onCloudDataChange none s = s
    ∧ (d.timestamp = none → onCloudDataChange (some d) s = s)
    ∧ (∀ ts, d.timestamp = some ts → ts ≤ s.lastCloudTimestamp →
        onCloudDataChange (some d) s = s)
    ∧ (∀ ts, d.timestamp = some ts → s.lastCloudTimestamp < ts → s.isSaving = false →
        onCloudDataChange (some d) s = applyData d s
        ∧ (applyData d s).lastCloudTimestamp = ts
        ∧ (∀ l, d.completedLearning = some l →
            (applyData d s).completedLearning = jsSetDedup l)
        ∧ (∀ l, d.completedExam = some l → (applyData d s).completedExam = jsSetDedup l)
        ∧ (∀ hh, d.history = some hh → (applyData d s).history = hh)
        ∧ (∀ w, d.wrongCounts = some w → (applyData d s).wrongCounts = w)
        ∧ (∀ m, d.questionMeta = some m → (applyData d s).questionMeta = m)
        ∧ (∀ sp, d.spacedRepetition = some sp → (applyData d s).spacedRepetition = sp)
        ∧ (∀ eh, d.examHistory = some eh → (applyData d s).examHistory = eh)
        ∧ (∀ e, d.exams = some e → e ≠ [] → (applyData d s).exams = e)
        ∧ (∀ e, d.exams = some e → e = [] → (applyData d s).exams = s.exams)) := by
  refine ⟨?_, ?_, ?_, ?_⟩
  · cases hs : s.isSaving <;> simp [onCloudDataChange, hs]
  · intro ht
    cases hs : s.isSaving <;> simp [onCloudDataChange, hs, ht]
  · intro ts hts hle
    cases hs : s.isSaving
    · simp only [onCloudDataChange, hs, Bool.false_eq_true, if_false, hts]
      rw [if_neg (by omega)]
    · simp [onCloudDataChange, hs]
  · intro ts hts hlt hsv
    refine ⟨?_, by simp [applyData, hts], ?_, ?_, ?_, ?_, ?_, ?_, ?_, ?_, ?_⟩
    · simp only [onCloudDataChange, hsv, Bool.false_eq_true, if_false, hts]
      rw [if_pos ⟨by omega, hlt⟩]
    · intro l hl
      simp [applyData, hl]
    · intro l hl
      simp [applyData, hl]
    · intro hh hl
      simp [applyData, hl]
    · intro w hl
      simp [applyData, hl]
    · intro m hl
      simp [applyData, hl]
    · intro sp hl
      simp [applyData, hl]
    · intro eh hl
      simp [applyData, hl]
    · intro e he hne
      rcases e with _ | ⟨x, xs⟩
      · exact absurd rfl hne
      · simp [applyData, he]
    · intro e he he0
      subst he0
      simp [applyData, he]

/-- Concrete inputs for the C1 witness: local timestamp 3, inbound
timestamp 5 with every field present and a non-empty exams array. -/
def c1wStore : LocalStore where
  completedLearning := [0]
  completedExam := []
  history := []
  wrongCounts := [(2, 1)]
  exams := [[2]]
  questionMeta := []
  spacedRepetition := []
  examHistory := []
  lastCloudTimestamp := 3
  isSaving := false

def c1wData : CloudData where
  timestamp := some 5
  completedLearning := some [1, 1, 2]
  completedExam := some [0]
  history := some []
  wrongCounts := some [(4, 2)]
  exams := some [[9, 10]]
  questionMeta := some []
  spacedRepetition := some []
  examHistory := some []

theorem onCloudDataChange_spec_witness :
    onCloudDataChange (some c1wData) c1wStore = applyData c1wData c1wStore
    ∧ (applyData c1wData c1wStore).lastCloudTimestamp = 5
    ∧ (applyData c1wData c1wStore).exams = [[9, 10]] := by
  have h := (onCloudDataChange_spec c1wStore c1wData).2.2.2 5 rfl (by decide) rfl
  exact ⟨h.1, h.2.1, h.2.2.2.2.2.2.2.2.2.1 [[9, 10]] rfl (by decide)⟩

end AFExam
